import Mathlib

/-!
Verification development for the secure archive extraction subsystem
(`src/utils/archive_handler.py`) and its caller (`src/ui/server.py`).

The Python module is shallowly embedded as follows.

* Filesystem paths are canonical-form component lists (`List String`);
  an archive member name is kept as the raw `String` appearing in the
  archive directory, parsed into components exactly where the source
  builds `extract_to / member`.
* Python string helpers (`str.lower`, `str.endswith`, `str.startswith`,
  `Path.suffix`, `Path.stem`) are re-implemented over `List Char` so that
  all definitions evaluate inside the kernel.  On the ASCII names the code
  manipulates they agree with the Python originals.
* Exceptions become `Except`: `SecurityValidationError` and
  `ArchiveExtractionError` are the two constructors of `ExtractErr`.
* `Path.resolve` is modelled lexically: "." and empty segments disappear
  at parse time (as in `pathlib`), ".." pops one component (symlinks are
  not modelled).  `Path.relative_to` succeeding is exactly the resolved
  base being a component-prefix of the resolved target.
* Sizes are exact naturals in bytes.  The source compares
  `st_size / (1024*1024) > LIMIT_MB` in floating point; division of an
  integer by `2^20` only shifts the exponent, so for every size for which
  the comparison could be close the comparison is exact and equals the
  integer comparison `size > LIMIT_MB * 1048576` used here.
* Each extractor returns an `ExtractOutcome`: the `Except` result of the
  call together with the list of files it materialized on disk before
  returning or raising (the source's `extracted_files` accumulator at the
  moment control leaves the loop).
-/

namespace ArchiveHandler

/-! ## Security limits (module constants, archive_handler.py lines 19-25) -/

def MAX_ARCHIVE_SIZE_MB : Nat := 50

def MAX_FILES_IN_ARCHIVE : Nat := 100

def MAX_EXTRACTION_DEPTH : Nat := 1

def MAX_FILE_SIZE_MB : Nat := 10

def SUPPORTED_ARCHIVE_EXTENSIONS : List String := [".zip", ".tar", ".tar.gz", ".tgz"]

def SUPPORTED_DOCUMENT_EXTENSIONS : List String := [".pdf", ".txt", ".docx"]

/-- Bytes per megabyte; the source divides sizes by `1024 * 1024`. -/
def MB : Nat := 1048576

/-! ## Lexical helpers (Python `str` / `pathlib` operations on ASCII names) -/

/-- Python `str.lower` on ASCII strings. -/
def strLower (s : String) : String := String.mk (s.toList.map Char.toLower)

/-- Python `str.endswith`. -/
def strEndsWith (s t : String) : Bool := t.toList.isSuffixOf s.toList

/-- Python `str.startswith`. -/
def strStartsWith (s t : String) : Bool := t.toList.isPrefixOf s.toList

/-- Index of the last '.' in a name, Python `name.rfind('.')` (as `Option`). -/
def lastDotIdx (cs : List Char) : Option Nat :=
  match cs.reverse.findIdx? (· = '.') with
  | none => none
  | some j => some (cs.length - 1 - j)

/-- Python `pathlib.PurePath.suffix` of a bare file name: the substring from
the last dot, provided that dot is neither the first nor the last character;
otherwise the empty string. -/
def pySuffix (name : String) : String :=
  let cs := name.toList
  match lastDotIdx cs with
  | none => ""
  | some i =>
      if 0 < i ∧ i < cs.length - 1 then String.mk (cs.drop i) else ""

/-- Python `pathlib.PurePath.stem` of a bare file name. -/
def pyStem (name : String) : String :=
  let cs := name.toList
  match lastDotIdx cs with
  | none => name
  | some i =>
      if 0 < i ∧ i < cs.length - 1 then String.mk (cs.take i) else name

/-- `is_archive_file` (archive_handler.py lines 40-53): `.tar.gz` is matched on
the lowered whole name first, then the single suffix is looked up. -/
def is_archive_file (filename : String) : Bool :=
  strEndsWith (strLower filename) ".tar.gz" ||
    SUPPORTED_ARCHIVE_EXTENSIONS.contains (strLower (pySuffix filename))

/-! ## Path model -/

/-- Split a member name on '/'. -/
def splitSlashGo : List Char → List Char → List String
  | [], cur => [String.mk cur.reverse]
  | '/' :: rest, cur => String.mk cur.reverse :: splitSlashGo rest []
  | c :: rest, cur => splitSlashGo rest (c :: cur)

/-- Parse a member-name string into path components the way `pathlib` does:
split on '/', dropping empty segments and "." segments (".." is kept and is
resolved later by `resolvePath`, as `Path.resolve` does). -/
def parseParts (s : String) : List String :=
  (splitSlashGo s.toList []).filter (fun c => c ≠ "" && c ≠ ".")

/-- `extract_to / member`: joining a member name onto a base path.  As in
`pathlib`, an absolute member name replaces the base. -/
def joinPath (base : List String) (s : String) : List String :=
  if strStartsWith s "/" then parseParts s else base ++ parseParts s

/-- Lexical part of `Path.resolve`: ".." pops one component (popping past the
root is a no-op, as on POSIX). -/
def resolveComps : List String → List String → List String
  | acc, [] => acc
  | acc, ".." :: rest => resolveComps acc.dropLast rest
  | acc, c :: rest => resolveComps (acc ++ [c]) rest

def resolvePath (p : List String) : List String := resolveComps [] p

/-! ## Errors and outcomes -/

/-- The two exception types of the module: `SecurityValidationError` and
`ArchiveExtractionError`. -/
inductive ExtractErr where
  | security : ExtractErr
  | extraction : ExtractErr
deriving DecidableEq, Repr

instance instDecEqExcept {ε α : Type} [DecidableEq ε] [DecidableEq α] :
    DecidableEq (Except ε α) := fun a b =>
  match a, b with
  | Except.ok x, Except.ok y =>
      if h : x = y then isTrue (by rw [h]) else isFalse (fun hh => by cases hh; exact h rfl)
  | Except.ok _, Except.error _ => isFalse (fun hh => by cases hh)
  | Except.error _, Except.ok _ => isFalse (fun hh => by cases hh)
  | Except.error x, Except.error y =>
      if h : x = y then isTrue (by rw [h]) else isFalse (fun hh => by cases hh; exact h rfl)

/-- Result of one extractor call: the value returned or the exception raised,
together with the files the call had already written to disk at that point. -/
structure ExtractOutcome where
  result : Except ExtractErr (List (List String))
  written : List (List String)
deriving DecidableEq, Repr

/-! ## Validators -/

/-- `validate_archive_safety` (lines 56-72): the only check is the on-disk
size of the archive against `MAX_ARCHIVE_SIZE_MB`. -/
def validate_archive_safety (sizeBytes : Nat) : Except ExtractErr Unit :=
  if sizeBytes > MAX_ARCHIVE_SIZE_MB * MB then Except.error ExtractErr.security
  else Except.ok ()

/-- The SecurityLimitsValidator as the spec describes it (spec sections 4.2 and
8): two ordered checks, archive size first, then member count from the
archive's name/header directory.  This definition follows the spec's words and
exists only to be compared with `validate_archive_safety`, the validator the
code actually has. -/
def securityLimitsValidator_spec (sizeBytes memberCount : Nat) : Except ExtractErr Unit :=
  if sizeBytes > MAX_ARCHIVE_SIZE_MB * MB then Except.error ExtractErr.security
  else if memberCount > MAX_FILES_IN_ARCHIVE then Except.error ExtractErr.security
  else Except.ok ()

/-- `validate_extracted_path` (lines 75-94): resolve both paths and require
`target.relative_to(extract_to)` to succeed, i.e. the resolved base to be a
component-prefix (not necessarily proper) of the resolved target. -/
def validate_extracted_path (extract_to target : List String) : Except ExtractErr Unit :=
  if (resolvePath extract_to).isPrefixOf (resolvePath target) then Except.ok ()
  else Except.error ExtractErr.security

/-! ## ZIP extraction (lines 97-154) -/

/-- One entry of `zip_ref.namelist()` together with its
`getinfo(member).file_size` (declared uncompressed size in bytes). -/
structure ZipEntry where
  name : String
  fileSize : Nat
deriving DecidableEq, Repr

/-- What `zipfile.ZipFile` yields on the archive's bytes: the member list, or
`BadZipFile` for corrupt data. -/
inductive ZipFile where
  | parsed : List ZipEntry → ZipFile
  | corrupt : ZipFile
deriving DecidableEq, Repr

/-- The member loop of `extract_zip` (lines 122-143): skip directory entries,
validate containment (raising aborts the loop with the files written so far
left on disk), skip oversized entries, extract the rest. -/
def extract_zip_go (extract_to : List String) :
    List ZipEntry → List (List String) → ExtractOutcome
  | [], acc => ⟨Except.ok acc, acc⟩
  | e :: rest, acc =>
      if strEndsWith e.name "/" then extract_zip_go extract_to rest acc
      else
        let target := joinPath extract_to e.name
        match validate_extracted_path extract_to target with
        | Except.error err => ⟨Except.error err, acc⟩
        | Except.ok _ =>
            if e.fileSize > MAX_FILE_SIZE_MB * MB then
              extract_zip_go extract_to rest acc
            else
              extract_zip_go extract_to rest (acc ++ [target])

/-- `extract_zip` (lines 97-154): corrupt data raises
`ArchiveExtractionError`; then the member count is checked against
`MAX_FILES_IN_ARCHIVE` before the member loop runs. -/
def extract_zip (zf : ZipFile) (extract_to : List String) : ExtractOutcome :=
  match zf with
  | ZipFile.corrupt => ⟨Except.error ExtractErr.extraction, []⟩
  | ZipFile.parsed entries =>
      if entries.length > MAX_FILES_IN_ARCHIVE then ⟨Except.error ExtractErr.security, []⟩
      else extract_zip_go extract_to entries []

/-! ## TAR extraction (lines 157-220) -/

/-- One entry of `tar_ref.getmembers()`: its name, whether `member.isfile()`
(regular file), and `member.size` in bytes. -/
structure TarEntry where
  name : String
  isFile : Bool
  size : Nat
deriving DecidableEq, Repr

/-- What `tarfile.open` yields on the archive's bytes. -/
inductive TarFile where
  | parsed : List TarEntry → TarFile
  | corrupt : TarFile
deriving DecidableEq, Repr

/-- The member loop of `extract_tar` (lines 189-209): skip everything that is
not a regular file, then proceed exactly as the ZIP loop. -/
def extract_tar_go (extract_to : List String) :
    List TarEntry → List (List String) → ExtractOutcome
  | [], acc => ⟨Except.ok acc, acc⟩
  | e :: rest, acc =>
      if !e.isFile then extract_tar_go extract_to rest acc
      else
        let target := joinPath extract_to e.name
        match validate_extracted_path extract_to target with
        | Except.error err => ⟨Except.error err, acc⟩
        | Except.ok _ =>
            if e.size > MAX_FILE_SIZE_MB * MB then
              extract_tar_go extract_to rest acc
            else
              extract_tar_go extract_to rest (acc ++ [target])

/-- `extract_tar` (lines 157-220).  The gzip-vs-plain open mode is chosen from
the filename and does not affect the member-level semantics modelled here. -/
def extract_tar (tf : TarFile) (extract_to : List String) : ExtractOutcome :=
  match tf with
  | TarFile.corrupt => ⟨Except.error ExtractErr.extraction, []⟩
  | TarFile.parsed entries =>
      if entries.length > MAX_FILES_IN_ARCHIVE then ⟨Except.error ExtractErr.security, []⟩
      else extract_tar_go extract_to entries []

/-! ## Dispatch (`extract_archive`, lines 223-247) -/

/-- An archive file as `extract_archive` sees it: its filename, its on-disk
`stat().st_size`, and the outcome of parsing its bytes as a ZIP respectively
as a TAR (only the view matching the filename suffix is ever consulted). -/
structure Archive where
  name : String
  sizeBytes : Nat
  asZip : ZipFile
  asTar : TarFile

/-- `extract_archive` (lines 223-247): size validation first, then dispatch on
the lowered filename; unsupported suffixes raise `ArchiveExtractionError`. -/
def extract_archive (a : Archive) (extract_to : List String) : ExtractOutcome :=
  match validate_archive_safety a.sizeBytes with
  | Except.error e => ⟨Except.error e, []⟩
  | Except.ok _ =>
      let filename := strLower a.name
      if strEndsWith filename ".zip" then extract_zip a.asZip extract_to
      else if strEndsWith filename ".tar" || strEndsWith filename ".tar.gz" ||
          strEndsWith filename ".tgz" then extract_tar a.asTar extract_to
      else ⟨Except.error ExtractErr.extraction, []⟩

/-! ## Recursive document discovery (`find_supported_files`, lines 250-294)

Discovery re-walks the directory tree the extractors materialized on disk.
The tree is embedded as `FSItem`: a directory with its entries, or a regular
file.  A file additionally carries the outcome that `extract_archive` produces
when discovery treats it as a nested archive — `extractErr` is the error it
raises (`extract_archive` raises exactly the two `ExtractErr` kinds), or
`none` when extraction succeeds materializing `extracted` in the nested
directory.  These two fields stand for the bytes of the file; for a
non-archive name they are never consulted, mirroring the source, which
dispatches purely on the name. -/

inductive FSItem where
  | file : String → Option ExtractErr → List FSItem → FSItem
  | dir : String → List FSItem → FSItem

/-- The synthetic sub-workspace directory name used for a nested archive,
`f"_extracted_{item.stem}"` (line 278). -/
def extractedDirName (name : String) : String := "_extracted_" ++ pyStem name

/-- `find_supported_files` (lines 250-294), called on a directory's path and
entry list at a given depth.  The guard `depth > MAX_EXTRACTION_DEPTH` returns
nothing; a file whose lowered suffix is a supported document extension is
collected; otherwise, when `depth < MAX_EXTRACTION_DEPTH` and the name is an
archive, the nested archive is extracted into the synthetic directory and
recursed into at `depth + 1`, its `ArchiveExtractionError` /
`SecurityValidationError` being caught and the item skipped; subdirectories
not named with the synthetic marker are recursed into at the same depth.
(The source checks the depth guard once per directory before its loop;
re-checking it at every loop step, as here, returns the same results since
`depth` is constant over the loop.) -/
def find_supported_files (dirPath : List String) (entries : List FSItem) (depth : Nat) :
    List (List String) :=
  if depth > MAX_EXTRACTION_DEPTH then []
  else
    match entries with
    | [] => []
    | FSItem.file name extractErr items :: rest =>
        (if SUPPORTED_DOCUMENT_EXTENSIONS.contains (strLower (pySuffix name)) then
          [dirPath ++ [name]]
        else if depth < MAX_EXTRACTION_DEPTH && is_archive_file name then
          if extractErr.isSome then []
          else find_supported_files (dirPath ++ [extractedDirName name]) items (depth + 1)
        else []) ++ find_supported_files dirPath rest depth
    | FSItem.dir name sub :: rest =>
        (if !strStartsWith name "_extracted_" then
          find_supported_files (dirPath ++ [name]) sub depth
        else []) ++ find_supported_files dirPath rest depth
termination_by (sizeOf entries, 0)

/-- The directories `find_supported_files` creates on disk: one synthetic
sub-workspace per nested archive it decides to extract
(`nested_extract_dir.mkdir(exist_ok=True)`, line 279 — created before
`extract_archive` is attempted, so also present when that extraction fails). -/
def find_created_dirs (dirPath : List String) (entries : List FSItem) (depth : Nat) :
    List (List String) :=
  if depth > MAX_EXTRACTION_DEPTH then []
  else
    match entries with
    | [] => []
    | FSItem.file name extractErr items :: rest =>
        (if SUPPORTED_DOCUMENT_EXTENSIONS.contains (strLower (pySuffix name)) then []
        else if depth < MAX_EXTRACTION_DEPTH && is_archive_file name then
          (dirPath ++ [extractedDirName name]) ::
            (if extractErr.isSome then []
            else find_created_dirs (dirPath ++ [extractedDirName name]) items (depth + 1))
        else []) ++ find_created_dirs dirPath rest depth
    | FSItem.dir name sub :: rest =>
        (if !strStartsWith name "_extracted_" then
          find_created_dirs (dirPath ++ [name]) sub depth
        else []) ++ find_created_dirs dirPath rest depth
termination_by (sizeOf entries, 0)

/-! ## Workspace lifecycle (`process_archive`, lines 297-335, and
`process_archive_files`, server.py lines 150-194)

The disk is abstracted as the list of temporary directories this subsystem has
created and not yet removed.  `shutil.rmtree` on a root removes the root and
everything below it. -/

/-- `shutil.rmtree(root)`: every directory having `root` as a path prefix
disappears. -/
def rmtree (root : List String) (disk : List (List String)) : List (List String) :=
  disk.filter (fun d => !root.isPrefixOf d)

/-- `process_archive` (lines 297-335): create the temporary workspace
(`tempfile.mkdtemp`, modelled by the fresh path `ws`), extract, and on any
exception remove the workspace and re-raise; on success run discovery (whose
synthetic sub-directories stay on disk) and return the discovered files with
the workspace, whose removal is the caller's responsibility.  `tree` is the
directory tree that the successful extraction materialized in `ws`. -/
def process_archive (disk : List (List String)) (ws : List String) (a : Archive)
    (tree : List FSItem) : Except ExtractErr (List (List String)) × List (List String) :=
  let disk1 := ws :: disk
  match (extract_archive a ws).result with
  | Except.error e => (Except.error e, rmtree ws disk1)
  | Except.ok _ =>
      (Except.ok (find_supported_files ws tree 0), disk1 ++ find_created_dirs ws tree 0)

/-- Result kinds of `process_archive_files` (server.py lines 150-194): the
combined text, a `ValueError` (no supported files / no extractable text), or
one of the two archive errors propagated from `process_archive`. -/
inductive ServerResult where
  | ok : ServerResult
  | valueError : ServerResult
  | archiveError : ExtractErr → ServerResult
deriving DecidableEq, Repr

/-- `process_archive_files` (server.py lines 150-194): when `process_archive`
raises, `temp_dir` is still `None` and the `finally` block does nothing (the
workspace was already removed inside `process_archive`); on success the
`finally` block always removes the workspace, whatever the per-file text
extraction did (text extraction touches no directories). -/
def process_archive_files (disk : List (List String)) (ws : List String) (a : Archive)
    (tree : List FSItem) : ServerResult × List (List String) :=
  match process_archive disk ws a tree with
  | (Except.error e, disk1) => (ServerResult.archiveError e, disk1)
  | (Except.ok supported, disk1) =>
      ((if supported.isEmpty then ServerResult.valueError else ServerResult.ok),
        rmtree ws disk1)

/-! ## Theorems -/

/-- C2: for every archive whose on-disk size strictly exceeds the configured
maximum archive size, `extract_archive` fails with SecurityValidationError
before any archive member is read — the result does not depend on the archive's
contents (`a.asZip` and `a.asTar` are arbitrary here) — and zero files are
written to any workspace. -/
theorem c2_oversized_archive_rejected (a : Archive) (extract_to : List String)
    (h : a.sizeBytes > MAX_ARCHIVE_SIZE_MB * MB) :
    extract_archive a extract_to = ⟨Except.error ExtractErr.security, []⟩ := by
  simp [extract_archive, validate_archive_safety, h]

/-- Witness for C2: a 51 MB archive (contents never consulted: both parse views
are `corrupt`) is rejected with SecurityValidationError and nothing written. -/
theorem c2_witness :
    extract_archive ⟨"a.zip", 51 * MB, ZipFile.corrupt, TarFile.corrupt⟩ ["ws"] =
      ⟨Except.error ExtractErr.security, []⟩ :=
  c2_oversized_archive_rejected ⟨"a.zip", 51 * MB, ZipFile.corrupt, TarFile.corrupt⟩ ["ws"]
    (by decide)

/-- C4 counterexample: the claim says the workspace root itself is rejected,
but `validate_extracted_path` accepts a candidate equal to the root
(`Path.relative_to` succeeds on equal paths), so containment is not strict. -/
theorem c4_counterexample : validate_extracted_path ["ws"] ["ws"] = Except.ok () := by
  decide

/-- C4 (amended): path-containment validation resolves both paths to canonical
form and succeeds exactly when the workspace root's canonical form is a
(not necessarily proper) component-prefix of the candidate's canonical form:
the root itself is accepted, everything outside the root is rejected with
SecurityValidationError before any bytes are written. -/
theorem c4_containment_nonstrict (extract_to target : List String) :
    validate_extracted_path extract_to target = Except.ok () ↔
      resolvePath extract_to <+: resolvePath target := by
  unfold validate_extracted_path
  split
  next h => simpa [List.isPrefixOf_iff_prefix] using h
  next h => simp_all [List.isPrefixOf_iff_prefix]

/-- C3 counterexample: the claim says `validate_archive_safety` checks the
member count after the size check; on a 1000-byte archive with 101 members the
spec's two-check validator rejects, but the code's validator — which receives
only the stat size and never looks at members — accepts. -/
theorem c3_counterexample :
    validate_archive_safety 1000 = Except.ok () ∧
      securityLimitsValidator_spec 1000 101 = Except.error ExtractErr.security := by
  decide

/-- C3 (amended): `validate_archive_safety` performs only the archive-size
check; the member count is checked once, by the extractors, against the fully
parsed member list — and that check fires before any member payload is
extracted: for every archive with more members than the maximum, both
extractors raise SecurityValidationError with zero files written. -/
theorem c3_member_count_checked_in_extractors :
    (∀ (ws : List String) (entries : List ZipEntry),
      entries.length > MAX_FILES_IN_ARCHIVE →
        extract_zip (ZipFile.parsed entries) ws = ⟨Except.error ExtractErr.security, []⟩) ∧
    (∀ (ws : List String) (entries : List TarEntry),
      entries.length > MAX_FILES_IN_ARCHIVE →
        extract_tar (TarFile.parsed entries) ws = ⟨Except.error ExtractErr.security, []⟩) := by
  constructor
  · intro ws entries h
    simp [extract_zip, h]
  · intro ws entries h
    simp [extract_tar, h]

/-- Witness for C3: 101 trivial members trip the extractor-level count check in
both formats. -/
theorem c3_witness :
    extract_zip (ZipFile.parsed (List.replicate 101 ⟨"f.txt", 0⟩)) ["ws"] =
        ⟨Except.error ExtractErr.security, []⟩ ∧
      extract_tar (TarFile.parsed (List.replicate 101 ⟨"f.txt", true, 0⟩)) ["ws"] =
        ⟨Except.error ExtractErr.security, []⟩ :=
  ⟨c3_member_count_checked_in_extractors.1 ["ws"] _ (by decide),
    c3_member_count_checked_in_extractors.2 ["ws"] _ (by decide)⟩

/-- Helper for C1: if some zip member is a non-directory entry whose name
resolves outside the workspace root, the member loop ends in
SecurityValidationError (whatever was accumulated before). -/
theorem extract_zip_go_escape (extract_to : List String) (entries : List ZipEntry)
    (acc : List (List String))
    (h : ∃ e ∈ entries, strEndsWith e.name "/" = false ∧
      (resolvePath extract_to).isPrefixOf (resolvePath (joinPath extract_to e.name)) = false) :
    (extract_zip_go extract_to entries acc).result = Except.error ExtractErr.security := by
  induction entries generalizing acc with
  | nil => simp at h
  | cons e rest ih =>
    obtain ⟨b, hb, hbdir, hbesc⟩ := h
    by_cases hd : strEndsWith e.name "/" = true
    · have hbr : b ∈ rest := by
        rcases List.mem_cons.mp hb with rfl | h1
        · rw [hd] at hbdir; cases hbdir
        · exact h1
      rw [extract_zip_go, if_pos hd]
      exact ih acc ⟨b, hbr, hbdir, hbesc⟩
    · by_cases hv : (resolvePath extract_to).isPrefixOf (resolvePath (joinPath extract_to e.name)) = true
      · have hbr : b ∈ rest := by
          rcases List.mem_cons.mp hb with rfl | h1
          · rw [hv] at hbesc; cases hbesc
          · exact h1
        by_cases hs : e.fileSize > MAX_FILE_SIZE_MB * MB
        · simp only [extract_zip_go, if_neg hd, validate_extracted_path, if_pos hv, if_pos hs]
          exact ih acc ⟨b, hbr, hbdir, hbesc⟩
        · simp only [extract_zip_go, if_neg hd, validate_extracted_path, if_pos hv, if_neg hs]
          exact ih _ ⟨b, hbr, hbdir, hbesc⟩
      · simp only [extract_zip_go, if_neg hd, validate_extracted_path]
        rw [if_neg (by simpa using hv)]

/-- Helper for C1: the tar analogue of `extract_zip_go_escape`, for regular
file members whose name resolves outside the workspace root. -/
theorem extract_tar_go_escape (extract_to : List String) (entries : List TarEntry)
    (acc : List (List String))
    (h : ∃ e ∈ entries, e.isFile = true ∧
      (resolvePath extract_to).isPrefixOf (resolvePath (joinPath extract_to e.name)) = false) :
    (extract_tar_go extract_to entries acc).result = Except.error ExtractErr.security := by
  induction entries generalizing acc with
  | nil => simp at h
  | cons e rest ih =>
    obtain ⟨b, hb, hbf, hbesc⟩ := h
    by_cases hd : e.isFile = true
    · by_cases hv : (resolvePath extract_to).isPrefixOf (resolvePath (joinPath extract_to e.name)) = true
      · have hbr : b ∈ rest := by
          rcases List.mem_cons.mp hb with rfl | h1
          · rw [hv] at hbesc; cases hbesc
          · exact h1
        by_cases hs : e.size > MAX_FILE_SIZE_MB * MB
        · simp only [extract_tar_go, hd, Bool.not_true, Bool.false_eq_true, if_false,
            validate_extracted_path, if_pos hv, if_pos hs]
          exact ih acc ⟨b, hbr, hbf, hbesc⟩
        · simp only [extract_tar_go, hd, Bool.not_true, Bool.false_eq_true, if_false,
            validate_extracted_path, if_pos hv, if_neg hs]
          exact ih _ ⟨b, hbr, hbf, hbesc⟩
      · simp only [extract_tar_go, hd, Bool.not_true, Bool.false_eq_true, if_false,
          validate_extracted_path]
        rw [if_neg (by simpa using hv)]
    · have hbr : b ∈ rest := by
        rcases List.mem_cons.mp hb with rfl | h1
        · exact absurd hbf hd
        · exact h1
      have hd' : e.isFile = false := by
        cases hf : e.isFile
        · rfl
        · exact absurd hf hd
      simp only [extract_tar_go, hd', Bool.not_false, if_true]
      exact ih acc ⟨b, hbr, hbf, hbesc⟩

/-- C1 counterexample: the claim says a traversal member leaves zero extracted
files, but validation is interleaved with extraction: in a ZIP whose safe
member `good.txt` precedes the traversal member `../evil.txt`, the call raises
SecurityValidationError with `good.txt` already materialized in the workspace
— the partial member set is on disk (only the returned list is lost). -/
theorem c1_counterexample :
    (extract_zip (ZipFile.parsed [⟨"good.txt", 10⟩, ⟨"../evil.txt", 10⟩]) ["ws"]).result
        = Except.error ExtractErr.security ∧
      (extract_zip (ZipFile.parsed [⟨"good.txt", 10⟩, ⟨"../evil.txt", 10⟩]) ["ws"]).written
        = [["ws", "good.txt"]] := by
  decide

/-- C1 (amended): for every archive containing a non-directory (ZIP) or
regular-file (TAR) member whose name resolves outside the workspace root, the
extraction call raises SecurityValidationError and returns no extracted-file
list; members materialized before the offending one remain on disk and are
discarded with the workspace by the caller. -/
theorem c1_traversal_aborts_extraction :
    (∀ (ws : List String) (entries : List ZipEntry),
      (∃ e ∈ entries, strEndsWith e.name "/" = false ∧
        (resolvePath ws).isPrefixOf (resolvePath (joinPath ws e.name)) = false) →
      (extract_zip (ZipFile.parsed entries) ws).result = Except.error ExtractErr.security) ∧
    (∀ (ws : List String) (entries : List TarEntry),
      (∃ e ∈ entries, e.isFile = true ∧
        (resolvePath ws).isPrefixOf (resolvePath (joinPath ws e.name)) = false) →
      (extract_tar (TarFile.parsed entries) ws).result = Except.error ExtractErr.security) := by
  constructor
  · intro ws entries h
    rw [extract_zip]
    split
    · rfl
    · exact extract_zip_go_escape ws entries [] h
  · intro ws entries h
    rw [extract_tar]
    split
    · rfl
    · exact extract_tar_go_escape ws entries [] h

/-- Witness for C1 (amended): the classic `../` member trips the security
error in both extractors. -/
theorem c1_witness :
    (extract_zip (ZipFile.parsed [⟨"../evil.txt", 1⟩]) ["ws"]).result
        = Except.error ExtractErr.security ∧
      (extract_tar (TarFile.parsed [⟨"../evil.txt", true, 1⟩]) ["ws"]).result
        = Except.error ExtractErr.security :=
  ⟨c1_traversal_aborts_extraction.1 ["ws"] [⟨"../evil.txt", 1⟩] (by decide),
    c1_traversal_aborts_extraction.2 ["ws"] [⟨"../evil.txt", true, 1⟩] (by decide)⟩

/-- C5: an archive holding one member over the per-file limit and one within
it (both safe, non-directory names) extracts successfully to exactly the
in-limit member, in both the ZIP and the TAR extractor: the oversized member
is skipped, absent from the result, and no error is raised. -/
theorem c5_oversized_member_skipped :
    (∀ (ws : List String) (e1 e2 : ZipEntry),
      strEndsWith e1.name "/" = false →
      (resolvePath ws).isPrefixOf (resolvePath (joinPath ws e1.name)) = true →
      e1.fileSize > MAX_FILE_SIZE_MB * MB →
      strEndsWith e2.name "/" = false →
      (resolvePath ws).isPrefixOf (resolvePath (joinPath ws e2.name)) = true →
      ¬ e2.fileSize > MAX_FILE_SIZE_MB * MB →
      extract_zip (ZipFile.parsed [e1, e2]) ws =
        ⟨Except.ok [joinPath ws e2.name], [joinPath ws e2.name]⟩) ∧
    (∀ (ws : List String) (t1 t2 : TarEntry),
      t1.isFile = true →
      (resolvePath ws).isPrefixOf (resolvePath (joinPath ws t1.name)) = true →
      t1.size > MAX_FILE_SIZE_MB * MB →
      t2.isFile = true →
      (resolvePath ws).isPrefixOf (resolvePath (joinPath ws t2.name)) = true →
      ¬ t2.size > MAX_FILE_SIZE_MB * MB →
      extract_tar (TarFile.parsed [t1, t2]) ws =
        ⟨Except.ok [joinPath ws t2.name], [joinPath ws t2.name]⟩) := by
  constructor
  · intro ws e1 e2 h1d h1c h1s h2d h2c h2s
    simp [extract_zip, extract_zip_go, validate_extracted_path, h1d, h1c, h1s, h2d, h2c, h2s,
      MAX_FILES_IN_ARCHIVE]
  · intro ws t1 t2 h1d h1c h1s h2d h2c h2s
    simp [extract_tar, extract_tar_go, validate_extracted_path, h1d, h1c, h1s, h2d, h2c, h2s,
      MAX_FILES_IN_ARCHIVE]

/-- Witness for C5: an 11 MB member next to a small member yields exactly the
small member, in both formats. -/
theorem c5_witness :
    extract_zip (ZipFile.parsed [⟨"big.bin", 11 * MB⟩, ⟨"ok.txt", 1⟩]) ["ws"] =
        ⟨Except.ok [["ws", "ok.txt"]], [["ws", "ok.txt"]]⟩ ∧
      extract_tar (TarFile.parsed [⟨"big.bin", true, 11 * MB⟩, ⟨"ok.txt", true, 1⟩]) ["ws"] =
        ⟨Except.ok [["ws", "ok.txt"]], [["ws", "ok.txt"]]⟩ := by
  constructor
  · have := c5_oversized_member_skipped.1 ["ws"] ⟨"big.bin", 11 * MB⟩ ⟨"ok.txt", 1⟩ (by decide)
      (by decide) (by decide) (by decide) (by decide) (by decide)
    simpa using this
  · have := c5_oversized_member_skipped.2 ["ws"] ⟨"big.bin", true, 11 * MB⟩ ⟨"ok.txt", true, 1⟩
      (by decide) (by decide) (by decide) (by decide) (by decide) (by decide)
    simpa using this

/-- C10: the three security bounds are strict (exclusive): an archive of
exactly 50 MB passes `validate_archive_safety`; a ZIP with exactly 100 members
is extracted without error; and a member declaring exactly 10 MB is extracted
rather than skipped, in both the ZIP and the TAR extractor. -/
theorem c10_bounds_are_strict :
    validate_archive_safety (50 * MB) = Except.ok () ∧
    extract_zip (ZipFile.parsed (List.replicate 100 ⟨"a.txt", 0⟩)) ["ws"] =
      ⟨Except.ok (List.replicate 100 ["ws", "a.txt"]), List.replicate 100 ["ws", "a.txt"]⟩ ∧
    extract_zip (ZipFile.parsed [⟨"b.txt", 10 * MB⟩]) ["ws"] =
      ⟨Except.ok [["ws", "b.txt"]], [["ws", "b.txt"]]⟩ ∧
    extract_tar (TarFile.parsed [⟨"c.txt", true, 10 * MB⟩]) ["ws"] =
      ⟨Except.ok [["ws", "c.txt"]], [["ws", "c.txt"]]⟩ := by
  refine ⟨by decide, by decide, by decide, by decide⟩

/-- C6: with maximum nesting depth 1, discovery over an archive nested inside
an archive nested inside an archive yields documents only from the first two
levels.  The workspace holds the outer archive's extraction (level 1:
`doc1.pdf` and the nested `mid.zip`); `mid.zip` extracts to level 2
(`doc2.txt` and the doubly nested `inner.zip`).  Whatever the third level
holds (`inner` and `innerErr` are arbitrary, as are the unconsulted fields of
the document files), the nested archive met at depth 1 is skipped without
error and the result is exactly the two documents of levels 1 and 2. -/
theorem c6_third_level_never_materialized (n1 n2 innerErr : Option ExtractErr)
    (l1 l2 inner : List FSItem) :
    find_supported_files []
      [FSItem.file "doc1.pdf" n1 l1,
       FSItem.file "mid.zip" none
         [FSItem.file "doc2.txt" n2 l2, FSItem.file "inner.zip" innerErr inner]] 0
    = [["doc1.pdf"], ["_extracted_mid", "doc2.txt"]] := by
  simp +decide [find_supported_files, MAX_EXTRACTION_DEPTH, extractedDirName]

/-- Helper for C8: every path discovery returns is strictly longer than the
directory it was called on (each result appends at least a file name). -/
theorem find_supported_files_longer (dirPath : List String) (entries : List FSItem)
    (depth : Nat) :
    ∀ p ∈ find_supported_files dirPath entries depth, dirPath.length < p.length := by
  induction dirPath, entries, depth using find_supported_files.induct with
  | case1 dirPath entries depth hd =>
      intro p hp
      rw [find_supported_files.eq_def] at hp
      simp [hd] at hp
  | case2 dirPath depth hd =>
      intro p hp
      rw [find_supported_files.eq_def] at hp
      simp [hd] at hp
  | case3 dirPath depth hd name extractErr items rest ih1 ih2 =>
      intro p hp
      rw [find_supported_files.eq_def] at hp
      rw [if_neg hd] at hp
      rcases List.mem_append.mp hp with h | h
      · split at h
        · rcases List.mem_singleton.mp h with rfl
          simp
        · split at h
          · split at h
            · simp at h
            · have := ih1 p h
              simp at this ⊢
              omega
          · simp at h
      · exact ih2 p h
  | case4 dirPath depth hd name sub rest ih1 ih2 =>
      intro p hp
      rw [find_supported_files.eq_def] at hp
      rw [if_neg hd] at hp
      rcases List.mem_append.mp hp with h | h
      · split at h
        · have := ih1 p h
          simp at this ⊢
          omega
        · simp at h
      · exact ih2 p h

/-- C8 counterexample: the claim says the supported document suffixes are
exactly `.pdf` and `.txt`, but discovery also collects `a.docx` — the module's
`SUPPORTED_DOCUMENT_EXTENSIONS` contains `.docx` as well. -/
theorem c8_counterexample :
    find_supported_files [] [FSItem.file "a.docx" (some ExtractErr.extraction) []] 0
        = [["a.docx"]] ∧
      strLower (pySuffix "a.docx") ∉ [".pdf", ".txt"] := by
  refine ⟨?_, by decide⟩
  simp +decide [find_supported_files]

/-- C8 (amended): at any depth within the recursion bound, discovery collects
a regular file as a discovered document exactly when its lowered extension is
one of the supported document suffixes — which are `.pdf`, `.txt` and
`.docx`. -/
theorem c8_collected_iff_supported_suffix (dirPath : List String) (name : String)
    (extractErr : Option ExtractErr) (items : List FSItem) (depth : Nat)
    (h : depth ≤ MAX_EXTRACTION_DEPTH) :
    (dirPath ++ [name]) ∈
        find_supported_files dirPath [FSItem.file name extractErr items] depth ↔
      strLower (pySuffix name) ∈ SUPPORTED_DOCUMENT_EXTENSIONS := by
  have hd : ¬ depth > MAX_EXTRACTION_DEPTH := by omega
  rw [find_supported_files.eq_def, if_neg hd]
  constructor
  · intro hp
    rcases List.mem_append.mp hp with h1 | h1
    · split at h1
      next hc => simpa using hc
      next hc =>
        split at h1
        · split at h1
          · simp at h1
          · have := find_supported_files_longer _ _ _ _ h1
            simp at this
        · simp at h1
    · rw [find_supported_files.eq_def] at h1
      simp [hd] at h1
  · intro hc
    simp [hc]

/-- Witness for C8 (amended): a `.pdf` file at depth 0 is collected, and the
equivalence is discharged at that input. -/
theorem c8_witness :
    ([] ++ ["a.pdf"]) ∈
        find_supported_files [] [FSItem.file "a.pdf" none []] 0 ↔
      strLower (pySuffix "a.pdf") ∈ SUPPORTED_DOCUMENT_EXTENSIONS :=
  c8_collected_iff_supported_suffix [] "a.pdf" none [] 0 (by decide)

/-- C9: a nested archive whose extraction fails with either
ArchiveExtractionError or SecurityValidationError (both kinds of
`ExtractErr`, here `e`) is caught and skipped: discovery of the directory is
exactly discovery of the sibling entries, with no error propagated.  (The
hypothesis only rules the file out of being collected as a document by its
own suffix, which is independent of the failure handling.) -/
theorem c9_failed_nested_archive_skipped (dirPath : List String) (name : String)
    (e : ExtractErr) (items : List FSItem) (rest : List FSItem) (depth : Nat)
    (h : strLower (pySuffix name) ∉ SUPPORTED_DOCUMENT_EXTENSIONS) :
    find_supported_files dirPath (FSItem.file name (some e) items :: rest) depth =
      find_supported_files dirPath rest depth := by
  by_cases hd : depth > MAX_EXTRACTION_DEPTH
  · rw [find_supported_files.eq_def, if_pos hd]
    rw [find_supported_files.eq_def]
    cases rest <;> simp [hd]
  · rw [find_supported_files.eq_def, if_neg hd]
    simp [h]

/-- Witness for C9: a corrupt `bad.zip` is skipped and the sibling `ok.txt`
is still discovered. -/
theorem c9_witness :
    find_supported_files []
        [FSItem.file "bad.zip" (some ExtractErr.extraction) [],
         FSItem.file "ok.txt" none []] 0 =
      find_supported_files [] [FSItem.file "ok.txt" none []] 0 :=
  c9_failed_nested_archive_skipped [] "bad.zip" ExtractErr.extraction []
    [FSItem.file "ok.txt" none []] 0 (by decide)

/-- Helper for C7: every directory discovery creates lies under the directory
discovery was started on, so a recursive delete of the workspace removes all
nested sub-workspaces transitively. -/
theorem find_created_dirs_under (dirPath : List String) (entries : List FSItem)
    (depth : Nat) :
    ∀ d ∈ find_created_dirs dirPath entries depth, dirPath <+: d := by
  induction dirPath, entries, depth using find_created_dirs.induct with
  | case1 dirPath entries depth hd =>
      intro d hdin
      rw [find_created_dirs.eq_def] at hdin
      simp [hd] at hdin
  | case2 dirPath depth hd =>
      intro d hdin
      rw [find_created_dirs.eq_def] at hdin
      simp [hd] at hdin
  | case3 dirPath depth hd name extractErr items rest ih1 ih2 =>
      intro d hdin
      rw [find_created_dirs.eq_def, if_neg hd] at hdin
      rcases List.mem_append.mp hdin with h1 | h1
      · split at h1
        · simp at h1
        · split at h1
          · rcases List.mem_cons.mp h1 with rfl | h2
            · exact List.prefix_append _ _
            · split at h2
              · simp at h2
              · exact (List.prefix_append dirPath [extractedDirName name]).trans (ih1 d h2)
          · simp at h1
      · exact ih2 d h1
  | case4 dirPath depth hd name sub rest ih1 ih2 =>
      intro d hdin
      rw [find_created_dirs.eq_def, if_neg hd] at hdin
      rcases List.mem_append.mp hdin with h1 | h1
      · split at h1
        · exact (List.prefix_append dirPath [name]).trans (ih1 d h1)
        · simp at h1
      · exact ih2 d h1

/-- C7: after any archive-processing attempt through the server entry point —
success, a `ValueError`, or either archive error — the disk holds exactly the
directories it held before: the workspace `process_archive` created (fresh by
hypothesis) is gone on every path, and the nested sub-workspace directories
discovery created are removed transitively with it. -/
theorem c7_no_temp_dirs_remain (disk : List (List String)) (ws : List String)
    (a : Archive) (tree : List FSItem)
    (hfresh : ∀ d ∈ disk, ws.isPrefixOf d = false) :
    (process_archive_files disk ws a tree).2 = disk := by
  have hws : ws.isPrefixOf ws = true := List.isPrefixOf_iff_prefix.mpr List.prefix_rfl
  have hdisk : disk.filter (fun d => !ws.isPrefixOf d) = disk :=
    List.filter_eq_self.mpr (fun d hd => by rw [hfresh d hd]; rfl)
  have hcreated : (find_created_dirs ws tree 0).filter (fun d => !ws.isPrefixOf d) = [] := by
    rw [List.filter_eq_nil_iff]
    intro d hd
    have := find_created_dirs_under ws tree 0 d hd
    rw [List.isPrefixOf_iff_prefix.mpr this]
    simp
  cases hres : (extract_archive a ws).result with
  | error e =>
      simp only [process_archive_files, process_archive, hres, rmtree]
      simp [hws, hdisk]
  | ok l =>
      simp only [process_archive_files, process_archive, hres, rmtree]
      simp [List.filter_append, hws, hdisk, hcreated]

/-- Witness for C7: a workspace containing a nested archive (so a nested
sub-workspace is created) is processed and the disk ends exactly as it
started. -/
theorem c7_witness :
    (process_archive_files [["other"]] ["tmp", "ws1"]
        ⟨"a.zip", 1000, ZipFile.parsed [⟨"n.zip", 5⟩], TarFile.corrupt⟩
        [FSItem.file "n.zip" none [FSItem.file "d.pdf" none []]]).2 = [["other"]] :=
  c7_no_temp_dirs_remain [["other"]] ["tmp", "ws1"]
    ⟨"a.zip", 1000, ZipFile.parsed [⟨"n.zip", 5⟩], TarFile.corrupt⟩
    [FSItem.file "n.zip" none [FSItem.file "d.pdf" none []]] (by decide)

end ArchiveHandler
